import Mathlib

set_option autoImplicit false

/-!
Shallow embedding of the lock-resolution and download pipeline of
`mia/commands/definition.py` (functions `create_apps_lock_file`,
`get_apps_lock_info`, `download_apps`), together with the index-cache
step and the manifest-write step of the same file.

The index document is the parsed `index.xml`: a list of `application`
elements, each carrying an `id` attribute, the text nodes of its
`marketvercode` children, and an ordered list of `package` children,
each with the text nodes of its `apkname` and `versioncode` children.
-/

structure Package where
  apkname : List String
  versioncode : List String
deriving DecidableEq, Repr

structure Application where
  id : String
  marketvercode : List String
  packages : List Package
deriving DecidableEq, Repr

abbrev IndexDoc := List Application

/-- One entry of `settings[apps_key]`: a Python dict with keys `name` and
`code`; resolution may add `package_name` and `package_url` (absent keys are
modelled as `none`). -/
structure AppInfo where
  name : String
  code : String
  package_name : Option String := none
  package_url : Option String := none
deriving DecidableEq, Repr

/-- One entry of `settings['repositories']`. -/
structure RepoInfo where
  name : String
  base_url : String
  apps_key : String
deriving DecidableEq, Repr

/-- XPath positional predicate `elem[pos]`: XPath 1.0 positions are 1-based,
so `pos = 0` selects nothing. -/
def selectPosition {α : Type} (xs : List α) (pos : Nat) : List α :=
  if h : 1 ≤ pos ∧ pos ≤ xs.length then [xs.get ⟨pos - 1, by omega⟩] else []

/-- The node set `//application[@id='appId']`, in document order. -/
def appsWithId (doc : IndexDoc) (appId : String) : List Application :=
  doc.filter (fun app => app.id == appId)

/-- The query `//application[@id='%s']/package[0]/apkname/text()` built at
line 230 of `definition.py`: the `apkname` text nodes of the `package` child
at XPath position 0 of each matching application. -/
def latestNameQuery (doc : IndexDoc) (appId : String) : List String :=
  (appsWithId doc appId).flatMap (fun app =>
    (selectPosition app.packages 0).flatMap (fun p => p.apkname))

/-- The query `//application[@id='%s']/marketvercode/text()` built at
line 234 of `definition.py`. -/
def codeQuery (doc : IndexDoc) (appId : String) : List String :=
  (appsWithId doc appId).flatMap (fun app => app.marketvercode)

/-- Decimal value of a digit character, by code point. -/
def digitVal (c : Char) : Option Nat :=
  if 48 ≤ c.toNat ∧ c.toNat ≤ 57 then some (c.toNat - 48) else none

/-- XPath `number()` conversion restricted to the form version codes take:
the decimal value of a nonempty all-digit string, `none` (NaN) otherwise. -/
def strToNat? (s : String) : Option Nat :=
  match s.data with
  | [] => none
  | c :: cs =>
      (c :: cs).foldl
        (fun acc ch =>
          match acc, digitVal ch with
          | some n, some d => some (n * 10 + d)
          | _, _ => none)
        (some 0)

/-- XPath `=` between a text node and the spliced code literal: both sides
are converted to numbers and compared; a non-numeric side compares unequal
(NaN). Codes are decimal integers here, per the settings schema. -/
def xpathNumEq (a b : String) : Bool :=
  match strToNat? a, strToNat? b with
  | some m, some n => m == n
  | _, _ => false

/-- The predicate `../../versioncode/text() = code` evaluated at an `apkname`
text node of a package: true when some `versioncode` text node of that
package equals the code. -/
def packageMatchesCode (p : Package) (code : String) : Bool :=
  p.versioncode.any (fun v => xpathNumEq v code)

/-- The query
`//application[@id='%s']/package/apkname/text()[../../versioncode/text() = %s]`
built at line 239 of `definition.py`. -/
def exactNameQuery (doc : IndexDoc) (appId : String) (code : String) : List String :=
  (appsWithId doc appId).flatMap (fun app =>
    app.packages.flatMap (fun p =>
      if packageMatchesCode p code then p.apkname else []))

/-- Lines 244-256 of `definition.py`: given the two query results, either
drop the declaration (empty name list) or update it in place with
`package_name`, `package_url`, and — when the version-code query ran and
returned values — a new `code`. -/
def applyMatch (base_url : String) (a : AppInfo) (names : List String)
    (codes : Option (List String)) : Option AppInfo :=
  match names with
  | [] => none
  | n :: _ =>
      some { a with
        package_name := some n
        package_url := some (base_url ++ "/" ++ n)
        code := match codes with
                | some (c :: _) => c
                | _ => a.code }

/-- The body of the loop at lines 228-256 of `definition.py` for one
declaration: branch on `--force-latest` or the `"latest"` sentinel, run the
corresponding queries, and build the updated record or drop it. -/
def resolveStep (forceLatest : Bool) (base_url : String) (doc : IndexDoc)
    (a : AppInfo) : Option AppInfo :=
  if forceLatest || a.code == "latest" then
    applyMatch base_url a (latestNameQuery doc a.name) (some (codeQuery doc a.name))
  else
    applyMatch base_url a (exactNameQuery doc a.name a.code) none

/-- The latest-path branch (lines 229-236 plus 244-256) on its own. -/
def resolveLatestPath (base_url : String) (doc : IndexDoc) (a : AppInfo) :
    Option AppInfo :=
  applyMatch base_url a (latestNameQuery doc a.name) (some (codeQuery doc a.name))

/-- The exact-path branch (lines 238-242 plus 244-256) on its own. -/
def resolveExactPath (base_url : String) (doc : IndexDoc) (a : AppInfo) :
    Option AppInfo :=
  applyMatch base_url a (exactNameQuery doc a.name a.code) none

/-- CPython semantics of `for key, app_info in enumerate(repo_apps)` with
`del repo_apps[key]` inside the body: the list iterator holds a cursor that
advances once per yielded item, so a successful step overwrites the current
slot and moves on, while a failed step deletes the current slot and the next
yield reads the element after the one that slid into it. -/
def lockLoop (step : AppInfo → Option AppInfo) (xs : List AppInfo) (pos : Nat) :
    List AppInfo :=
  if h : pos < xs.length then
    match step (xs.get ⟨pos, h⟩) with
    | some r => lockLoop step (xs.set pos r) (pos + 1)
    | none => lockLoop step (xs.eraseIdx pos) (pos + 1)
  else xs
termination_by xs.length - pos
decreasing_by
  · simp only [List.length_set]; omega
  · have := List.length_eraseIdx (l := xs) (i := pos)
    simp [h] at this; omega

/-- The resolution part of `get_apps_lock_info` (lines 226-257): run the
mutating loop over the declared apps of one repository and return the
mutated list. -/
def get_apps_lock_info (forceLatest : Bool) (repo : RepoInfo) (doc : IndexDoc)
    (repo_apps : List AppInfo) : List AppInfo :=
  lockLoop (resolveStep forceLatest repo.base_url doc) repo_apps 0

/-- URL of the repository index, line 211: `'%s/%s' % (base_url, 'index.xml')`. -/
def indexUrl (repo : RepoInfo) : String :=
  repo.base_url ++ "/" ++ "index.xml"

/-- Cache path of the repository index, lines 206-207:
`<root>/resources/<apps_key>.index.xml`. -/
def indexPath (root : String) (repo : RepoInfo) : String :=
  root ++ "/resources/" ++ repo.apps_key ++ ".index.xml"

/-- Observable state of the index-cache step: the content of the cache file
(`none` when absent), the ordered log of HTTP GET requests issued so far, and
the count of files created so far. -/
structure IndexFetchState where
  cacheFile : Option String
  getLog : List String
  createdFiles : Nat
deriving DecidableEq, Repr

/-- Lines 210-214 of `definition.py`: when the cache file exists it is used
as is; otherwise `urlretrieve` issues one GET of the index URL and writes the
response body `remote` verbatim to the cache path. -/
def ensureIndex (repo : RepoInfo) (remote : String) (st : IndexFetchState) :
    IndexFetchState :=
  if st.cacheFile.isSome then st
  else
    { cacheFile := some remote
      getLog := st.getLog ++ [indexUrl repo]
      createdFiles := st.createdFiles + 1 }

/-- Possible Python exceptions at the manifest-write step. -/
inductive PyExc where
  | osError
  | yamlError
deriving DecidableEq, Repr

/-- Observable outcome of the manifest-write step: the content at the lock
file path afterwards, the exception escaping the function (if any), whether
an opened file handle was left unclosed, and whether the error message was
printed. -/
structure WriteOutcome where
  fileContent : Option String
  uncaught : Option PyExc
  handleLeaked : Bool
  printedError : Bool
deriving DecidableEq, Repr

/-- Lines 188-195 of `definition.py`:
`try: fd = open(path, 'w'); fd.write(yaml.dump(lock_data, ...)); fd.close()`
with `except yaml.YAMLError: fd.close(); print(...); return None`.
Parameters: `canOpen` — the open in `'w'` mode succeeds (truncating the file
to empty); `dumpOk` — `yaml.dump` raises no `YAMLError`; `canWrite` — the
write syscall succeeds; `prev` — the prior content at the path; `content` —
the serialized lock data. Only `yaml.YAMLError` is caught, so an `OSError`
from `open` or `write` escapes. -/
def writeLockFile (canOpen dumpOk canWrite : Bool) (prev : Option String)
    (content : String) : WriteOutcome :=
  if !canOpen then
    { fileContent := prev
      uncaught := some PyExc.osError
      handleLeaked := false
      printedError := false }
  else if !dumpOk then
    { fileContent := some ""
      uncaught := none
      handleLeaked := false
      printedError := true }
  else if !canWrite then
    { fileContent := some ""
      uncaught := some PyExc.osError
      handleLeaked := true
      printedError := false }
  else
    { fileContent := some content
      uncaught := none
      handleLeaked := false
      printedError := false }

/-- Python dict assignment `d[k] = v` on an insertion-ordered dict modelled
as an association list: an existing key keeps its position and gets the new
value, a fresh key is appended. -/
def dictInsert {α : Type} (d : List (String × α)) (k : String) (v : α) :
    List (String × α) :=
  if d.any (fun kv => kv.1 == k) then
    d.map (fun kv => if kv.1 == k then (k, v) else kv)
  else d ++ [(k, v)]

/-- Lines 177-180 of `definition.py`: build `lock_data` by looping over
`settings['repositories']` and assigning
`lock_data[apps_key] = get_apps_lock_info(repo_info, settings[apps_key])`.
The per-repository index document and declaration list are both keyed by
`apps_key`, as in the source. -/
def create_lock_data (forceLatest : Bool) (repos : List RepoInfo)
    (docs : String → IndexDoc) (decls : String → List AppInfo) :
    List (String × List AppInfo) :=
  repos.foldl
    (fun d repo =>
      dictInsert d repo.apps_key
        (get_apps_lock_info forceLatest repo (docs repo.apps_key)
          (decls repo.apps_key)))
    []

/-- Filesystem paths as component lists. -/
abbrev FsPath := List String

/-- One record of the lock manifest as read back by `download_apps`. -/
structure ApkRecord where
  package_name : String
  package_url : String
deriving DecidableEq, Repr

/-- The lock manifest: repository group key to ordered records. -/
abbrev LockData := List (String × List ApkRecord)

/-- Observable state of the download step: existing directories and the
ordered log of fetches `(url, destination file)` performed. -/
structure DlState where
  dirs : List FsPath
  fetchLog : List (String × FsPath)
deriving DecidableEq, Repr

/-- `os.mkdir(p)`: creates exactly one directory level; raises
`FileExistsError` when `p` exists and `FileNotFoundError` when its parent
does not. -/
def osMkdir (dirs : List FsPath) (p : FsPath) : Except String (List FsPath) :=
  if dirs.contains p then Except.error "FileExistsError"
  else if dirs.contains p.dropLast then Except.ok (dirs ++ [p])
  else Except.error "FileNotFoundError"

/-- The inner loop of `download_apps` (lines 274-277) over one repository
group: one `urlretrieve(package_url, destinationDir/package_name)` per
record, in order. -/
def fetchGroup (dest : FsPath) (recs : List ApkRecord) (st : DlState) : DlState :=
  recs.foldl
    (fun st r =>
      { st with fetchLog := st.fetchLog ++ [(r.package_url, dest ++ [r.package_name])] })
    st

/-- Lines 260-277 of `definition.py`: compute
`user_apps_folder = definition_path/user-apps`, create it with a single
(non-recursive) `os.mkdir` only when it is not already a directory, then loop
over every group of the lock data and fetch each record. -/
def download_apps (lock : LockData) (definition_path : FsPath)
    (dirs : List FsPath) : Except String DlState :=
  let dest := definition_path ++ ["user-apps"]
  match (if dirs.contains dest then Except.ok dirs else osMkdir dirs dest) with
  | Except.error e => Except.error e
  | Except.ok dirs1 =>
      Except.ok
        (lock.foldl (fun st g => fetchGroup dest g.2 st)
          { dirs := dirs1, fetchLog := [] })

/-- Flat enumeration of the fetches the lock data calls for: one per record
across all groups, in manifest order, each to `dest/package_name`. -/
def expectedFetches (lock : LockData) (dest : FsPath) : List (String × FsPath) :=
  lock.flatMap (fun g => g.2.map (fun r => (r.package_url, dest ++ [r.package_name])))

/-! Helper lemmas. -/

theorem selectPosition_zero {α : Type} (xs : List α) : selectPosition xs 0 = [] := by
  simp [selectPosition]

theorem latestNameQuery_eq_nil (doc : IndexDoc) (appId : String) :
    latestNameQuery doc appId = [] := by
  simp [latestNameQuery, selectPosition_zero]

theorem fetchGroup_dirs (dest : FsPath) (recs : List ApkRecord) :
    ∀ st : DlState, (fetchGroup dest recs st).dirs = st.dirs := by
  induction recs with
  | nil => intro st; rfl
  | cons r rs ih => intro st; simpa [fetchGroup] using ih _

theorem fetchGroup_fetchLog (dest : FsPath) (recs : List ApkRecord) :
    ∀ st : DlState,
      (fetchGroup dest recs st).fetchLog =
        st.fetchLog ++ recs.map (fun r => (r.package_url, dest ++ [r.package_name])) := by
  induction recs with
  | nil => intro st; simp [fetchGroup]
  | cons r rs ih =>
      intro st
      have h := ih { st with fetchLog := st.fetchLog ++ [(r.package_url, dest ++ [r.package_name])] }
      simpa [fetchGroup, List.append_assoc] using h

theorem downloadFold_dirs (dest : FsPath) (lock : LockData) :
    ∀ st : DlState, (lock.foldl (fun st g => fetchGroup dest g.2 st) st).dirs = st.dirs := by
  induction lock with
  | nil => intro st; rfl
  | cons g gs ih => intro st; rw [List.foldl_cons, ih, fetchGroup_dirs]

theorem downloadFold_fetchLog (dest : FsPath) (lock : LockData) :
    ∀ st : DlState,
      (lock.foldl (fun st g => fetchGroup dest g.2 st) st).fetchLog =
        st.fetchLog ++ expectedFetches lock dest := by
  induction lock with
  | nil => intro st; simp [expectedFetches]
  | cons g gs ih =>
      intro st
      rw [List.foldl_cons, ih, fetchGroup_fetchLog]
      simp [expectedFetches, List.append_assoc]

/-! Concrete fixtures used by the claim theorems and witnesses. -/

/-- Index with applications `a` and `c` resolvable at their declared codes
and no application `b`. -/
def docAC : IndexDoc :=
  [ { id := "a", marketvercode := ["7"],
      packages := [{ apkname := ["a.apk"], versioncode := ["1"] }] },
    { id := "c", marketvercode := ["8"],
      packages := [{ apkname := ["c.apk"], versioncode := ["3"] }] } ]

def declA : AppInfo := { name := "a", code := "1" }

def declB : AppInfo := { name := "b", code := "2" }

def declC : AppInfo := { name := "c", code := "3" }

def repoX : RepoInfo := { name := "X", base_url := "http://x", apps_key := "xk" }

/-- The spec's latest-path example: application `foo` with `marketvercode`
15 whose first (and only) package is `foo-v15.apk`. -/
def c2Doc : IndexDoc :=
  [ { id := "foo", marketvercode := ["15"],
      packages := [{ apkname := ["foo-v15.apk"], versioncode := ["15"] }] } ]

/-- Application `foo` with a package but no `marketvercode` text at all. -/
def c9Doc : IndexDoc :=
  [ { id := "foo", marketvercode := [],
      packages := [{ apkname := ["foo.apk"], versioncode := ["7"] }] } ]

/-- The spec's exact-path example: application `foo` with package nodes of
version codes 10 and 12. -/
def fooDoc : IndexDoc :=
  [ { id := "foo", marketvercode := ["15"],
      packages := [{ apkname := ["foo-v10.apk"], versioncode := ["10"] },
                   { apkname := ["foo-v12.apk"], versioncode := ["12"] }] } ]

def fooDecl12 : AppInfo := { name := "foo", code := "12" }

/-- A lock manifest with two resolved records across two repository groups. -/
def lockEx : LockData :=
  [ ("g1", [{ package_name := "p1.apk", package_url := "u1" }]),
    ("g2", [{ package_name := "p2.apk", package_url := "u2" }]) ]

/-! Claim theorems. -/

/-- C1: the claim asserts that a declaration that fails to resolve does not
perturb subsequent declarations, and that for `[A, B, C]` with only `B`
failing the output is `[resolved(A), resolved(C)]`. The loop deletes the
failed entry from the very list it iterates, so `C` slides into the deleted
slot, is never visited, and is returned unresolved: the output is
`[resolved(A), C]` with `C` lacking `package_name` and `package_url`, even
though the same run on `[A, C]` alone resolves both. -/
theorem mia_C1_failed_decl_perturbs_successors :
    get_apps_lock_info false repoX docAC [declA, declB, declC] =
      [{ name := "a", code := "1", package_name := some "a.apk",
         package_url := some "http://x/a.apk" },
       { name := "c", code := "3", package_name := none, package_url := none }] ∧
    get_apps_lock_info false repoX docAC [declA, declC] =
      [{ name := "a", code := "1", package_name := some "a.apk",
         package_url := some "http://x/a.apk" },
       { name := "c", code := "3", package_name := some "c.apk",
         package_url := some "http://x/c.apk" }] := by
  constructor <;>
    (simp [get_apps_lock_info, lockLoop, resolveStep, applyMatch, exactNameQuery,
       appsWithId, packageMatchesCode, xpathNumEq, declA, declB, declC, repoX, docAC] <;>
     decide)

/-- C3: the claim asserts that every declaration with zero index matches
produces no entry in the resolver output. Both `declA` and `declB` have zero
matches against the empty index, yet resolving `[declA, declB]` returns
`[declB]`: deleting `declA` shifts `declB` into the deleted slot, the loop
ends, and the zero-match `declB` survives as an (unresolved) entry. Only a
zero-match declaration that is actually visited is dropped. -/
theorem mia_C3_zero_match_decl_survives :
    exactNameQuery [] declA.name declA.code = [] ∧
    exactNameQuery [] declB.name declB.code = [] ∧
    get_apps_lock_info false repoX [] [declA, declB] = [declB] ∧
    get_apps_lock_info false repoX [] [declA] = [] := by
  refine ⟨by decide, by decide, ?_, ?_⟩ <;>
    (simp [get_apps_lock_info, lockLoop, resolveStep, applyMatch, exactNameQuery,
       appsWithId, declA, declB, repoX] <;> decide)

/-- C4: the claim asserts that any failure to open or write the lock file is
returned as a `WriteError` (run continues), that the handle is released on
every exit path, and that a failed write leaves the prior manifest byte-for-
byte unchanged. The code catches only `yaml.YAMLError`: an `OSError` from
`open` escapes uncaught; an `OSError` from `write` escapes uncaught with the
handle never closed and the prior content already truncated away by opening
in `'w'` mode; only a `YAMLError` from serialization is caught and printed —
and even then the prior manifest has been truncated to empty. -/
theorem mia_C4_write_failure_escapes :
    writeLockFile false true true (some "old") "new" =
      { fileContent := some "old", uncaught := some PyExc.osError,
        handleLeaked := false, printedError := false } ∧
    writeLockFile true true false (some "old") "new" =
      { fileContent := some "", uncaught := some PyExc.osError,
        handleLeaked := true, printedError := false } ∧
    writeLockFile true false true (some "old") "new" =
      { fileContent := some "", uncaught := none,
        handleLeaked := false, printedError := true } ∧
    writeLockFile true true true (some "old") "new" =
      { fileContent := some "new", uncaught := none,
        handleLeaked := false, printedError := false } :=
  ⟨rfl, rfl, rfl, rfl⟩

/-- C10: the claim asserts one top-level group key per configured repository
(true: the single repository's `apps_key` is the only key) and that a
repository whose declarations all fail to resolve maps to an empty sequence.
With two failing declarations the mutate-while-iterating deletion leaves the
second declaration unvisited in the list, so the group maps to `[declB]`,
not `[]`. -/
theorem mia_C10_all_failed_group_not_empty :
    create_lock_data false [repoX] (fun _ => []) (fun _ => [declA, declB]) =
      [("xk", [declB])] ∧
    (create_lock_data false [repoX] (fun _ => []) (fun _ => [declA, declB])).map
        Prod.fst = [repoX.apps_key] := by
  constructor <;>
    (simp [create_lock_data, dictInsert, get_apps_lock_info, lockLoop, resolveStep,
       applyMatch, exactNameQuery, appsWithId, declA, declB, repoX] <;> decide)

/-- C2: the claim asserts that latest-path resolution returns the first
package node's `apkname` paired with the application's `marketvercode`, e.g.
`{package_name:"foo-v15.apk", code:15}` for `c2Doc`. The XPath built at line
230 is `.../package[0]/apkname/text()`, and XPath positions are 1-based, so
the positional predicate `[0]` selects nothing: the package-name query is
empty for every document and every application id, latest-path resolution
never yields a match, and on the spec's own example it returns `none` even
though the `marketvercode` query alone does return `"15"`. -/
theorem mia_C2_latest_resolution_never_matches :
    (∀ (doc : IndexDoc) (appId : String), latestNameQuery doc appId = []) ∧
    resolveLatestPath "https://repo" c2Doc { name := "foo", code := "latest" } = none ∧
    codeQuery c2Doc "foo" = ["15"] :=
  ⟨latestNameQuery_eq_nil, by decide, by decide⟩

/-- C9: the claim asserts that on the latest-path a package-name match with
an empty `marketvercode` query yields a record retaining the literal code
`"latest"`. The record-construction step (lines 251-256) would indeed retain
the code — the `applyMatch` conjunct shows it — but the latest-path
package-name query is always empty (XPath `package[0]`), so its premise is
unreachable: on `c9Doc` (a package present, no `marketvercode`) the
declaration is dropped entirely and no record with code `"latest"` is ever
produced. -/
theorem mia_C9_latest_code_retention_unreachable :
    latestNameQuery c9Doc "foo" = [] ∧
    codeQuery c9Doc "foo" = [] ∧
    resolveStep false "https://repo" c9Doc { name := "foo", code := "latest" } = none ∧
    applyMatch "https://repo" { name := "foo", code := "latest" } ["foo.apk"] (some []) =
      some { name := "foo", code := "latest", package_name := some "foo.apk",
             package_url := some "https://repo/foo.apk" } :=
  ⟨by decide, by decide, by decide, by decide⟩

/-- C5: exact-path resolution returns the `apkname` of a package node whose
sibling `versioncode` equals the requested code (membership soundness, with
the produced name being the head of the query result), returns no match when
no package of the application matches the code, and the produced record
retains the declaration's own code and name — the exact query contributes no
code. -/
theorem mia_C5_exact_resolution :
    ∀ (doc : IndexDoc) (appId code : String),
      ((∀ app ∈ appsWithId doc appId, ∀ p ∈ app.packages,
          packageMatchesCode p code = false) →
        exactNameQuery doc appId code = []) ∧
      (∀ n ∈ exactNameQuery doc appId code,
        ∃ app ∈ doc, app.id = appId ∧
          ∃ p ∈ app.packages, packageMatchesCode p code = true ∧ n ∈ p.apkname) ∧
      (∀ (base : String) (a r : AppInfo), resolveExactPath base doc a = some r →
        r.code = a.code ∧ r.name = a.name ∧
        r.package_name = (exactNameQuery doc a.name a.code).head? ∧
        r.package_url =
          ((exactNameQuery doc a.name a.code).head?).map (fun n => base ++ "/" ++ n)) ∧
      (∀ (base : String) (a : AppInfo),
        resolveExactPath base doc a = none ↔ exactNameQuery doc a.name a.code = []) := by
  intro doc appId code
  refine ⟨?_, ?_, ?_, ?_⟩
  · intro h
    rw [exactNameQuery, List.flatMap_eq_nil_iff]
    intro app happ
    rw [List.flatMap_eq_nil_iff]
    intro p hp
    simp [h app happ p hp]
  · intro n hn
    rw [exactNameQuery] at hn
    rcases List.mem_flatMap.mp hn with ⟨app, happ, hn2⟩
    rcases List.mem_flatMap.mp hn2 with ⟨p, hp, hn3⟩
    rcases List.mem_filter.mp happ with ⟨happdoc, hid⟩
    by_cases hm : packageMatchesCode p code
    · exact ⟨app, happdoc, by simpa using hid, p, hp, hm, by simpa [hm] using hn3⟩
    · simp [hm] at hn3
  · intro base a r hr
    rw [resolveExactPath] at hr
    cases hq : exactNameQuery doc a.name a.code with
    | nil => rw [hq] at hr; simp [applyMatch] at hr
    | cons n t =>
        rw [hq] at hr
        simp only [applyMatch, Option.some.injEq] at hr
        subst hr
        simp
  · intro base a
    rw [resolveExactPath]
    cases hq : exactNameQuery doc a.name a.code with
    | nil => simp [applyMatch, hq]
    | cons n t => simp [applyMatch, hq]

/-- The record `resolveExactPath` produces on the spec's exact-path example. -/
def fooRec12 : AppInfo :=
  { name := "foo", code := "12", package_name := some "foo-v12.apk",
    package_url := some "http://x/foo-v12.apk" }

/-- Witness for C5 at the spec's example: code 99 matches nothing, and the
record produced for code 12 keeps the declared code with the node-12 package
name. -/
theorem mia_C5_witness :
    exactNameQuery fooDoc "foo" "99" = [] ∧
    fooRec12.code = fooDecl12.code ∧
    fooRec12.package_name = (exactNameQuery fooDoc fooDecl12.name fooDecl12.code).head? :=
  ⟨(mia_C5_exact_resolution fooDoc "foo" "99").1 (by decide),
   ((mia_C5_exact_resolution fooDoc "foo" "12").2.2.1 "http://x" fooDecl12 fooRec12
      (by decide)).1,
   ((mia_C5_exact_resolution fooDoc "foo" "12").2.2.1 "http://x" fooDecl12 fooRec12
      (by decide)).2.2.1⟩

/-- C6: the resolver takes the latest-path exactly when the force-latest flag
is set or the declaration's code is the sentinel `"latest"`, and the
exact-path otherwise; in particular a `"latest"` declaration takes the
latest-path whatever the flag, and any declaration takes the latest-path
when the flag is set. -/
theorem mia_C6_path_choice :
    ∀ (f : Bool) (base : String) (doc : IndexDoc) (a : AppInfo),
      resolveStep f base doc a =
        (if f || a.code == "latest" then resolveLatestPath base doc a
         else resolveExactPath base doc a) ∧
      (a.code = "latest" → resolveStep f base doc a = resolveLatestPath base doc a) ∧
      (f = true → resolveStep f base doc a = resolveLatestPath base doc a) ∧
      (f = false → a.code ≠ "latest" →
        resolveStep f base doc a = resolveExactPath base doc a) := by
  intro f base doc a
  refine ⟨?_, ?_, ?_, ?_⟩
  · by_cases h : (f || (a.code == "latest")) = true
    · simp only [resolveStep, resolveLatestPath, h, if_true]
    · simp only [resolveStep, resolveExactPath, h, if_false,
        Bool.not_eq_true] at *
      simp [h]
  · intro hc
    have hb : (a.code == "latest") = true := by simp [hc]
    simp [resolveStep, resolveLatestPath, hb]
  · intro hf
    subst hf
    simp [resolveStep, resolveLatestPath]
  · intro hf hne
    subst hf
    have hb : (a.code == "latest") = false := beq_eq_false_iff_ne.mpr hne
    simp [resolveStep, resolveExactPath, hb]

/-- Witness for C6: a `"latest"` declaration takes the latest-path with the
flag off, a pinned declaration takes the latest-path with the flag on, and a
pinned declaration takes the exact-path with the flag off. -/
theorem mia_C6_witness :
    resolveStep false "u" [] { name := "x", code := "latest" } =
      resolveLatestPath "u" [] { name := "x", code := "latest" } ∧
    resolveStep true "u" [] { name := "x", code := "5" } =
      resolveLatestPath "u" [] { name := "x", code := "5" } ∧
    resolveStep false "u" [] { name := "x", code := "5" } =
      resolveExactPath "u" [] { name := "x", code := "5" } :=
  ⟨(mia_C6_path_choice false "u" [] { name := "x", code := "latest" }).2.1 rfl,
   (mia_C6_path_choice true "u" [] { name := "x", code := "5" }).2.2.1 rfl,
   (mia_C6_path_choice false "u" [] { name := "x", code := "5" }).2.2.2 rfl (by decide)⟩

/-- C7: when the cache file exists the call returns it unchanged — no GET,
no file creation, state untouched; when it is absent exactly one GET of
`base_url + "/index.xml"` is performed and its response is stored verbatim as
the new cache file, creating exactly one file; the call is idempotent, so a
second call creates nothing; and the cache path depends on the repository
only through `apps_key`. -/
theorem mia_C7_index_cache :
    ∀ (repo : RepoInfo) (remote : String) (st : IndexFetchState),
      (∀ d : String, st.cacheFile = some d → ensureIndex repo remote st = st) ∧
      (st.cacheFile = none →
        ensureIndex repo remote st =
          { cacheFile := some remote,
            getLog := st.getLog ++ [repo.base_url ++ "/" ++ "index.xml"],
            createdFiles := st.createdFiles + 1 }) ∧
      ensureIndex repo remote (ensureIndex repo remote st) =
        ensureIndex repo remote st ∧
      (∀ (root : String) (r2 : RepoInfo), r2.apps_key = repo.apps_key →
        indexPath root r2 = indexPath root repo) := by
  intro repo remote st
  refine ⟨?_, ?_, ?_, ?_⟩
  · intro d hd
    simp [ensureIndex, hd]
  · intro hnone
    simp [ensureIndex, hnone, indexUrl]
  · cases hc : st.cacheFile <;> simp [ensureIndex, hc]
  · intro root r2 h
    simp [indexPath, h]

def stEmpty : IndexFetchState := { cacheFile := none, getLog := [], createdFiles := 0 }

def stCached : IndexFetchState :=
  { cacheFile := some "cached", getLog := [], createdFiles := 1 }

def repoF : RepoInfo := { name := "F", base_url := "http://f", apps_key := "fk" }

/-- Witness for C7: on a cached state the call is the identity; on an empty
state it stores the response and logs one GET of the index URL. -/
theorem mia_C7_witness :
    ensureIndex repoF "body" stCached = stCached ∧
    ensureIndex repoF "body" stEmpty =
      { cacheFile := some "body",
        getLog := stEmpty.getLog ++ [repoF.base_url ++ "/" ++ "index.xml"],
        createdFiles := stEmpty.createdFiles + 1 } :=
  ⟨(mia_C7_index_cache repoF "body" stCached).1 "cached" rfl,
   (mia_C7_index_cache repoF "body" stEmpty).2.1 rfl⟩

/-- C8 counterexample: the claim says the downloader creates the destination
directory recursively if missing and then fetches every record. With no
existing directories at all (so the parent of `destinationDir` is missing),
recursive creation would succeed, but the single-level `os.mkdir` raises
`FileNotFoundError` and no fetch is performed on the 2-record manifest. -/
theorem mia_C8_counterexample :
    download_apps lockEx ["w", "d"] [] = Except.error "FileNotFoundError" := rfl

/-- C8 as amended: provided the destination directory or its parent already
exists, the downloader succeeds, its fetch log is exactly one fetch per
resolved record across all repository groups in manifest order, each to
`destinationDir/package_name` (so a 2-record manifest yields exactly 2
fetches), the destination directory exists afterwards, and an already
existing destination directory causes no failure and no directory change. -/
theorem mia_C8_download_contract :
    ∀ (lock : LockData) (defPath : FsPath) (dirs : List FsPath),
      (defPath ++ ["user-apps"]) ∈ dirs ∨ defPath ∈ dirs →
      ∃ st : DlState,
        download_apps lock defPath dirs = Except.ok st ∧
        st.fetchLog = expectedFetches lock (defPath ++ ["user-apps"]) ∧
        st.fetchLog.length = (lock.map (fun g => g.2.length)).sum ∧
        (defPath ++ ["user-apps"]) ∈ st.dirs ∧
        ((defPath ++ ["user-apps"]) ∈ dirs → st.dirs = dirs) := by
  intro lock defPath dirs h
  by_cases hd : (defPath ++ ["user-apps"]) ∈ dirs
  · have hc : dirs.contains (defPath ++ ["user-apps"]) = true := by
      simpa [List.contains] using List.elem_iff.mpr hd
    refine ⟨lock.foldl (fun st g => fetchGroup (defPath ++ ["user-apps"]) g.2 st)
      { dirs := dirs, fetchLog := [] }, ?_, ?_, ?_, ?_, ?_⟩
    · simp only [download_apps, hc, if_true]
    · exact (downloadFold_fetchLog _ _ _).trans (by simp)
    · rw [downloadFold_fetchLog]
      simp [expectedFetches, List.length_flatMap, Function.comp_def, List.length_map]
    · rw [downloadFold_dirs]; exact hd
    · intro _; rw [downloadFold_dirs]
  · have hp : defPath ∈ dirs := h.resolve_left hd
    have hc : dirs.contains (defPath ++ ["user-apps"]) = false := by
      simp only [List.contains]
      exact Bool.eq_false_iff.mpr (fun hx => hd (List.elem_iff.mp hx))
    have hcp : dirs.contains ((defPath ++ ["user-apps"]).dropLast) = true := by
      rw [List.dropLast_concat]
      simpa [List.contains] using List.elem_iff.mpr hp
    have hcd : dirs.contains (defPath ++ ["user-apps"]) ≠ true := by
      rw [hc]; exact Bool.false_ne_true
    refine ⟨lock.foldl (fun st g => fetchGroup (defPath ++ ["user-apps"]) g.2 st)
      { dirs := dirs ++ [defPath ++ ["user-apps"]], fetchLog := [] }, ?_, ?_, ?_, ?_, ?_⟩
    · simp only [download_apps, if_neg hcd, osMkdir, hc, hcp, if_true, Bool.false_eq_true,
        if_false]
    · exact (downloadFold_fetchLog _ _ _).trans (by simp)
    · rw [downloadFold_fetchLog]
      simp [expectedFetches, List.length_flatMap, Function.comp_def, List.length_map]
    · rw [downloadFold_dirs]; simp
    · intro hx; exact absurd hx hd

/-- Witness for the amended C8: on the 2-record manifest with the definition
directory present (and populated), the run succeeds and performs exactly the
two expected fetches. -/
theorem mia_C8_witness :
    ((["w", "d"] ++ ["user-apps"] : FsPath) ∈ ([[("w" : String)], ["w", "d"]] : List FsPath) ∨
      (["w", "d"] : FsPath) ∈ ([[("w" : String)], ["w", "d"]] : List FsPath)) ∧
    ∃ st : DlState,
      download_apps lockEx ["w", "d"] [["w"], ["w", "d"]] = Except.ok st ∧
      st.fetchLog = expectedFetches lockEx (["w", "d"] ++ ["user-apps"]) ∧
      st.fetchLog.length = (lockEx.map (fun g => g.2.length)).sum ∧
      (["w", "d"] ++ ["user-apps"] : FsPath) ∈ st.dirs ∧
      ((["w", "d"] ++ ["user-apps"] : FsPath) ∈ ([[("w" : String)], ["w", "d"]] : List FsPath) →
        st.dirs = [[("w" : String)], ["w", "d"]]) :=
  ⟨Or.inr (by decide),
   mia_C8_download_contract lockEx ["w", "d"] [["w"], ["w", "d"]] (Or.inr (by decide))⟩
